import Mathlib

/-!
Verification development for the Qiubit browser-extension wallet
(request broker and secure signing pipeline).

The definitions below are a shallow embedding of the JavaScript sources:
  * `src/utils/osm1.js`            — OSM-1 / OTX-1 message format layer
  * `src/services/DappService.js`  — connection store and pending-request map
  * the in-page provider script    — correlation table and per-call timeout
  * the background service worker  — session cache, zero-trust key handoff,
                                     approval broker, transaction signing

Modelling conventions:
  * JavaScript numbers that stay integral are modelled as `Int`/`Nat`.
  * IEEE-754 double rounding, where the source genuinely depends on it
    (`Math.floor(parseFloat(amount) * 1e6)`), is modelled exactly with
    rational arithmetic (`roundToDouble`).
  * JSON payload values are modelled as atoms (`JVal`): every payload this
    repository constructs is a flat object of strings and numbers.
  * External capabilities (tweetnacl signatures, SHA-256, the atob/btoa
    base64 codec) are abstract parameters (`CryptoPrims`), as the spec
    declares them external; `base58Encode` is part of the source and is
    embedded concretely.
  * Fallible code returns `Option`/`Except`; JS truthiness on strings
    (`"" == false`) is modelled explicitly by `truthyS`.
-/

/-- JSON atoms, the value space of the payload objects this repository
builds. `jundef` models a property whose value is the JS `undefined`. -/
inductive JVal where
  | jundef : JVal
  | jnull : JVal
  | jbool : Bool → JVal
  | jnum : Int → JVal
  | jstr : String → JVal
deriving DecidableEq, Repr

/-- A JS payload object: association list of property name to value.
JS objects cannot hold a key twice; theorems assume `Nodup` keys. -/
abbrev Payload := List (String × JVal)

/-- JSON string escaping as performed by `JSON.stringify`. -/
def jsonEscapeChar (c : Char) : String :=
  if c = '"' then "\\\""
  else if c = '\\' then "\\\\"
  else if c = '\n' then "\\n"
  else if c = '\r' then "\\r"
  else if c = '\t' then "\\t"
  else if c.toNat = 8 then "\\b"
  else if c.toNat = 12 then "\\f"
  else if c.toNat < 32 then
    "\\u00" ++ String.mk [(Nat.digitChar (c.toNat / 16)), (Nat.digitChar (c.toNat % 16))]
  else String.mk [c]

/-- Render a string as a JSON string literal. -/
def renderJStr (s : String) : String :=
  "\"" ++ String.join (s.data.map jsonEscapeChar) ++ "\""

/-- Render a JSON atom the way `JSON.stringify` does.  `jundef` is dropped
by every caller before rendering; it renders as null only as a dead branch. -/
def renderJVal : JVal → String
  | .jundef => "null"
  | .jnull => "null"
  | .jbool true => "true"
  | .jbool false => "false"
  | .jnum n => toString n
  | .jstr s => renderJStr s

/-- The property names of a payload, in insertion order (JS `Object.keys`). -/
def payloadKeys (p : Payload) : List String := p.map Prod.fst

/-- Lexicographic order on character lists by code point, as JS
`Array.prototype.sort()` compares strings (code points and UTF-16 units
agree on the basic multilingual plane). -/
def charListLe : List Char → List Char → Bool
  | [], _ => true
  | _ :: _, [] => false
  | a :: as, b :: bs =>
    if a.toNat < b.toNat then true
    else if b.toNat < a.toNat then false
    else charListLe as bs

/-- The default JS string comparison, on Lean strings. -/
def jsStrLe (a b : String) : Bool := charListLe a.data b.data

/-- The sort relation of `Object.keys(payload).sort()`. -/
def keyLe (a b : String) : Prop := jsStrLe a b = true

instance : DecidableRel keyLe := fun a b => by
  unfold keyLe; infer_instance

/-- `serializePayload` (osm1.js): sort the keys lexicographically, drop keys
whose value is `undefined`, serialize as compact JSON. -/
def serializePayload (p : Payload) : String :=
  let sortedKeys := List.insertionSort keyLe (payloadKeys p)
  let fields := sortedKeys.filterMap (fun k =>
    match List.lookup k p with
    | some v => if v = JVal.jundef then none else some (renderJStr k ++ ":" ++ renderJVal v)
    | none => none)
  "\x7b" ++ String.intercalate "," fields ++ "\x7d"

/-- `MESSAGE_PREFIX` in osm1.js: the literal `"\x19Octra Signed Message:\n"`. -/
def MESSAGE_HEADER : String := "\x19Octra Signed Message:\n"

/-- `createSigningMessage` (osm1.js): header, decimal length of the canonical
JSON, newline, canonical JSON.  (JS `String.length` counts UTF-16 units;
`String.length` here counts code points — they agree on the BMP strings
this wallet produces.) -/
def createSigningMessage (p : Payload) : String :=
  let serialized := serializePayload p
  MESSAGE_HEADER ++ toString serialized.length ++ "\n" ++ serialized

/-- `BASE58_ALPHABET` in osm1.js. -/
def BASE58_ALPHABET : String := "123456789ABCDEFGHJKLMNPQRSTUVWXYZabcdefghijkmnopqrstuvwxyz"

/-- Base58 digit loop of `base58Encode`: repeatedly divide by 58,
prepending the alphabet character of each remainder.  Structural recursion
on a fuel argument (which strictly dominates the digit count) so the
kernel can evaluate it inside `decide` proofs. -/
def base58DigitsGo (fuel : Nat) (n : Nat) : List Char :=
  match fuel with
  | 0 => []
  | fuel + 1 =>
    if n = 0 then []
    else base58DigitsGo fuel (n / 58) ++ [BASE58_ALPHABET.data.getD (n % 58) '1']

/-- The base-58 expansion of `n`, most significant digit first. -/
def base58Digits (n : Nat) : List Char := base58DigitsGo n n

/-- The big-endian byte fold `num = num * 256 + byte` of `base58Encode`. -/
def bytesToNat (bytes : List Nat) : Nat :=
  bytes.foldl (fun acc b => acc * 256 + b) 0

/-- `base58Encode` (osm1.js): empty input encodes to the empty string;
otherwise fold the bytes to a bignum, expand in base 58, and prepend one
`'1'` per leading zero byte. -/
def base58Encode (bytes : List Nat) : String :=
  if bytes = [] then ""
  else
    String.mk (List.replicate (bytes.takeWhile (· = 0)).length '1' ++
      base58Digits (bytesToNat bytes))

/-- `split('.')` on the character list, single-character separator. -/
def splitDotAux : List Char → List Char → List (List Char)
  | [], acc => [acc.reverse]
  | c :: rest, acc =>
    if c = '.' then acc.reverse :: splitDotAux rest []
    else splitDotAux rest (c :: acc)

/-- `s.split('.')` as JavaScript computes it. -/
def splitDot (s : String) : List (List Char) := splitDotAux s.data []

/-- Numeric value of a list of decimal digits. -/
def digitsVal (l : List Char) : Nat :=
  l.foldl (fun acc c => acc * 10 + (c.toNat - 48)) 0

/-- `octToMicro` (osm1.js): exact decimal-string conversion to micro-units.
Split on the decimal point, pad/truncate the fraction to 6 digits,
concatenate, strip leading zeros keeping at least "0". -/
def octToMicro (oct : String) : String :=
  let parts := splitDot oct
  let intPart := parts.getD 0 []
  let fracPart := parts.getD 1 []
  let frac6 := (fracPart ++ List.replicate (6 - fracPart.length) '0').take 6
  let stripped := (intPart ++ frac6).dropWhile (· = '0')
  if stripped.isEmpty then "0" else String.mk stripped

/-- `microToOct` (osm1.js): `Number(BigInt(micro)) / 1_000_000` on the
all-digit strings the wallet passes, modelled as the exact rational (the
JS double agrees on every value below 2^53 that the wallet handles;
division by 1e6 is then correctly rounded). -/
def microToOct (micro : String) : ℚ :=
  (digitsVal micro.data : ℚ) / 1000000

/-! ### Exact model of IEEE-754 double rounding

The background worker converts amounts with `Math.floor(parseFloat(amount)
* 1e6)`.  JavaScript numbers are IEEE-754 binary64 values and both the
decimal parse and the multiplication round to nearest, ties to even; that
rounding is fully deterministic, so we model it exactly with unreduced
integer fractions (a finite double is `m * 2^e` with `|m| < 2^53`).  The
wallet's amounts and fees are nonnegative, so the model covers
nonnegative values; subnormal underflow and overflow do not occur in the
evaluated range. -/

/-- An unreduced fraction with positive denominator; every operation below
preserves `0 < den`.  (Self-contained so that the kernel can evaluate the
double model inside `decide` proofs.) -/
structure Frac where
  num : Int
  den : Int
deriving DecidableEq, Repr

/-- Embed an integer. -/
def Frac.ofInt (n : Int) : Frac := ⟨n, 1⟩

/-- Fraction multiplication. -/
def Frac.mulF (a b : Frac) : Frac := ⟨a.num * b.num, a.den * b.den⟩

/-- Strict comparison (denominators positive). -/
def Frac.ltF (a b : Frac) : Bool := a.num * b.den < b.num * a.den

/-- Non-strict comparison (denominators positive). -/
def Frac.leF (a b : Frac) : Bool := a.num * b.den ≤ b.num * a.den

/-- `⌊a⌋` via floor division. -/
def Frac.floorF (a : Frac) : Int := a.num.fdiv a.den

/-- `2^e` as a fraction, for any integer `e`. -/
def pow2F (e : Int) : Frac :=
  if 0 ≤ e then ⟨2 ^ e.toNat, 1⟩ else ⟨1, 2 ^ (-e).toNat⟩

/-- Round a nonnegative fraction to an integer, half to even. -/
def roundHalfEven (a : Frac) : Int :=
  let n := a.floorF
  let frNum := a.num - n * a.den
  if 2 * frNum < a.den then n
  else if a.den < 2 * frNum then n + 1
  else if n % 2 = 0 then n else n + 1

/-- Iteratively halve until below 2, counting steps: `⌊log₂ a⌋` for
`a ≥ 1`.  The fuel far exceeds any binary64 exponent. -/
def floorLog2Go (fuel : Nat) (a : Frac) (acc : Int) : Int :=
  match fuel with
  | 0 => acc
  | fuel + 1 =>
    if a.ltF (Frac.ofInt 2) then acc
    else floorLog2Go fuel (a.mulF ⟨1, 2⟩) (acc + 1)

/-- Iteratively halve until at most 1, counting steps: `⌈log₂ b⌉` for
`b ≥ 1`. -/
def ceilLog2Go (fuel : Nat) (b : Frac) (acc : Int) : Int :=
  match fuel with
  | 0 => acc
  | fuel + 1 =>
    if b.leF (Frac.ofInt 1) then acc
    else ceilLog2Go fuel (b.mulF ⟨1, 2⟩) (acc + 1)

/-- `⌊log₂ a⌋` of a positive fraction, by repeated halving. -/
def floorLog2 (a : Frac) : Int :=
  if (Frac.ofInt 1).leF a then floorLog2Go 1200 a 0
  else -(ceilLog2Go 1200 ⟨a.den, a.num⟩ 0)

/-- The value of the IEEE-754 binary64 nearest to the nonnegative fraction
`q` (round to nearest, ties to even), as an exact fraction. -/
def roundToDouble (q : Frac) : Frac :=
  if q.num = 0 then ⟨0, 1⟩
  else
    let e : Int := floorLog2 q - 52
    let m := roundHalfEven (q.mulF (pow2F (-e)))
    (Frac.ofInt m).mulF (pow2F e)

/-- Exact value of a decimal string `"123.456"`. -/
def decimalToFrac (s : String) : Frac :=
  match splitDot s with
  | [i] => ⟨digitsVal i, 1⟩
  | [i, f] => ⟨(digitsVal i) * 10 ^ f.length + digitsVal f, 10 ^ f.length⟩
  | _ => ⟨0, 1⟩

/-- `Math.floor(parseFloat(amount) * 1_000_000).toString()` as the
background worker computes it: parse the decimal string to the nearest
double, multiply by 1e6 in double arithmetic, floor, print. -/
def jsFloorMul1e6 (amount : String) : String :=
  let x := roundToDouble (decimalToFrac amount)
  let p := roundToDouble (x.mulF ⟨1000000, 1⟩)
  toString p.floorF

/-! ### Shared JS helpers -/

/-- JS truthiness of an optional string property: absent, `null` and the
empty string are falsy. -/
def truthyS : Option String → Bool
  | some s => !s.isEmpty
  | none => false

/-- `a || b` on two optional string properties, yielding the chosen string
(`""` when both are falsy). -/
def jsOrS (a b : Option String) : String :=
  if truthyS a then a.getD "" else b.getD ""

/-- A structured `\x7bcode, message\x7d` error object as passed across
context boundaries. -/
structure JsError where
  code : Int
  message : String
deriving DecidableEq, Repr

/-! ### In-Page Provider (inpage script): correlation table and timeout -/

/-- The provider side of the wire protocol: the monotonically increasing
`requestId` counter and the ids whose `\x7bresolve, reject\x7d` pair is
still stored in `pendingRequests`. -/
structure ProviderState where
  requestId : Nat
  pending : List Nat
deriving DecidableEq, Repr

/-- How a pending dApp promise is settled. -/
inductive Settle where
  | resolve : JVal → Settle
  | reject : JsError → Settle
deriving DecidableEq, Repr

/-- The per-call timeout of `sendRequest`, in milliseconds. -/
def REQUEST_TIMEOUT_MS : Nat := 300000

/-- `sendRequest` allocation step: `const id = ++requestId;
pendingRequests.set(id, ...)`. Returns the new state and the id. -/
def sendRequestAlloc (st : ProviderState) : ProviderState × Nat :=
  let id := st.requestId + 1
  ({ requestId := id, pending := st.pending ++ [id] }, id)

/-- The window `OCTRA_RESPONSE` listener: a matching id is removed and its
promise settled (reject when `error` is truthy, else resolve); an unknown
id is ignored. -/
def handleResponseMsg (st : ProviderState) (id : Nat)
    (result : JVal) (error : Option JsError) : ProviderState × Option Settle :=
  if st.pending.contains id then
    ({ st with pending := st.pending.erase id },
     some (match error with
           | some e => Settle.reject e
           | none => Settle.resolve result))
  else (st, none)

/-- The `setTimeout` callback of `sendRequest`: if the id is still pending
after `REQUEST_TIMEOUT_MS`, delete the entry and reject with
`\x7bcode: 4100, message: 'Request timeout'\x7d` (sic — the source uses
4100 here, not the 4900 used by the content-script relay). -/
def fireTimeout (st : ProviderState) (id : Nat) : ProviderState × Option Settle :=
  if st.pending.contains id then
    ({ st with pending := st.pending.erase id },
     some (Settle.reject { code := 4100, message := "Request timeout" }))
  else (st, none)

/-! ### DappService: pending-request map and expiry sweep -/

/-- A record in `DappService.pendingRequests` (`addPendingRequest` stamps
`createdAt`). -/
structure PendingRecord where
  createdAt : Int
deriving DecidableEq, Repr

/-- The `DappService` pending-request map. -/
structure DappServiceState where
  pendingRequests : List (Nat × PendingRecord)
deriving DecidableEq, Repr

/-- The 5-minute expiry window of `clearExpiredRequests`. -/
def APPROVAL_EXPIRY_MS : Int := 5 * 60 * 1000

/-- `clearExpiredRequests`: delete every record older than 5 minutes.
The second component lists the continuation rejections the sweep issues;
the source only deletes, so it is always empty. -/
def clearExpiredRequests (now : Int) (st : DappServiceState) :
    DappServiceState × List (Nat × JsError) :=
  ({ pendingRequests :=
      st.pendingRequests.filter (fun kv => !(now - kv.2.createdAt > APPROVAL_EXPIRY_MS)) },
   [])

/-! ### Background worker: session cache and zero-trust key handoff -/

/-- The persisted `Session` (`dapp_wallet_session`) together with the
plaintext key fields the worker may inject for one operation; absent JS
properties are `none`. -/
structure Session where
  address : String
  publicKeyB64 : String
  encryptedPrivateKey : Option String
  privateKey : Option String
  privateKeyB64 : Option String
  network : Option String
deriving DecidableEq, Repr

/-- `getWalletFromStorage` (background worker), the signing choke point.
`decrypt` is the external `decryptSession` capability; `none` models a
decryption failure or thrown exception.  Step 1 reads the in-memory cache,
falling back to session storage; step 2 decrypts when both the ciphertext
and the in-memory session key are truthy and the plaintext is truthy;
step 3 is the legacy fallback that returns a session already carrying a
plaintext key; otherwise the wallet is locked (`none`). -/
def getWalletFromStorage (decrypt : String → String → Option String)
    (activeSessionCache storageSession : Option Session)
    (memorySessionKey : Option String) : Option Session :=
  let session := match activeSessionCache with
    | some s => some s
    | none => storageSession
  match session with
  | none => none
  | some s =>
    let viaDecrypt : Option String :=
      if truthyS s.encryptedPrivateKey && truthyS memorySessionKey then
        match decrypt (s.encryptedPrivateKey.getD "") (memorySessionKey.getD "") with
        | some p => if p.isEmpty then none else some p
        | none => none
      else none
    match viaDecrypt with
    | some p => some { s with privateKey := some p, privateKeyB64 := some p }
    | none =>
      if truthyS s.privateKey || truthyS s.privateKeyB64 then some s
      else none

/-! ### Approval broker: requestApproval and the connect fast path -/

/-- A per-origin `Connection` as the background worker stores it. -/
structure Connection where
  origin : String
  title : Option String
  favicon : Option String
  address : String
  connected : Bool
  connectedAt : Int
  networkId : Option String
  chainId : Option Int
deriving DecidableEq, Repr

/-- A record in the broker's `dappApprovals` map (the resolve/reject
continuation itself is tracked by the caller of `requestApprovalEffect`). -/
structure ApprovalRecord where
  type : String
  origin : String
  timestamp : Int
deriving DecidableEq, Repr

/-- The `chrome.windows.create` call made for an approval. -/
structure PopupRequest where
  url : String
  windowType : String
  width : Nat
  height : Nat
deriving DecidableEq, Repr

/-- `requestApproval` (background worker): store the `PendingApproval`
record under a fresh id and open a dedicated popup window whose URL
carries only the approval id. -/
def requestApprovalEffect (approvalId : String) (type origin : String)
    (now : Int) : ApprovalRecord × PopupRequest :=
  ({ type, origin, timestamp := now },
   { url := "index.html#/dapp/approve?id=" ++ approvalId,
     windowType := "popup", width := 360, height := 600 })

/-- The result returned to a dApp for `connect`. -/
structure ConnectResult where
  accounts : List String
  selectedAddress : String
  networkId : String
  chainId : Int
deriving DecidableEq, Repr

/-- The first phase of `handleConnect`, up to its suspension point. -/
inductive ConnectStep where
  /-- The already-connected fast path: resolve immediately, no approval. -/
  | immediate : ConnectResult → ConnectStep
  /-- All other cases: a `PendingApproval` of the given type is created for
  the origin and the approval popup is opened. -/
  | approvalRequested : String → String → ConnectStep
deriving DecidableEq, Repr

/-- `handleConnect` up to its `await requestApproval`: if the origin
already holds a `connected` record, return its account immediately
(defaulting networkId/chainId); otherwise create a `connect`
`PendingApproval` (this happens whether or not the wallet is locked —
a locked wallet only changes the popup content, not the branch). -/
def handleConnectStep (conns : List (String × Connection)) (origin : String) :
    ConnectStep :=
  match List.lookup origin conns with
  | some existing =>
    if existing.connected then
      ConnectStep.immediate
        { accounts := [existing.address], selectedAddress := existing.address,
          networkId := existing.networkId.getD "testnet",
          chainId := existing.chainId.getD 2 }
    else ConnectStep.approvalRequested "connect" origin
  | none => ConnectStep.approvalRequested "connect" origin

/-- `ensureNonce` (background worker): fires only when the caller supplied
no nonce (`undefined`/`null`); then the on-chain nonce plus one is used,
falling back to `Date.now()` when the lookup fails. `fetchNonce` models
the network: `some k` is a successful `/balance` response whose
`json.nonce || 0` is `k`. -/
def ensureNonce (fetchNonce : Option Int) (nonce : Option Int) (now : Int) :
    Option Int :=
  match nonce with
  | some n => some n
  | none =>
    match fetchNonce with
    | some netNonce => some (netNonce + 1)
    | none => some now

/-! ### Signing primitives (external capabilities)

tweetnacl, SHA-256 and the atob/btoa base64 codec are external to this
repository; they are abstract parameters.  Byte strings are `List Nat`
with each element below 256. -/

/-- The external signing/hash/codec capabilities used by the worker. -/
structure CryptoPrims where
  /-- `nacl.sign.detached message secretKey`. -/
  naclSignDetached : List Nat → List Nat → List Nat
  /-- `nacl.sign.detached.verify message signature publicKey`. -/
  naclVerifyDetached : List Nat → List Nat → List Nat → Bool
  /-- the `secretKey` of `nacl.sign.keyPair.fromSeed seed`. -/
  naclKeyPairFromSeedSecret : List Nat → List Nat
  /-- `crypto.subtle.digest('SHA-256', bytes)`. -/
  sha256 : List Nat → List Nat
  /-- `atob` followed by char-code extraction: base64 → bytes. -/
  atob : String → List Nat
  /-- byte string → base64 via `String.fromCharCode`/`btoa`. -/
  btoa : List Nat → String

/-- UTF-8 encoding of one character (`TextEncoder.encode`). -/
def utf8EncodeCharNat (c : Char) : List Nat :=
  let n := c.toNat
  if n < 128 then [n]
  else if n < 2048 then [192 + n / 64, 128 + n % 64]
  else if n < 65536 then [224 + n / 4096, 128 + (n / 64) % 64, 128 + n % 64]
  else [240 + n / 262144, 128 + (n / 4096) % 64, 128 + (n / 64) % 64, 128 + n % 64]

/-- UTF-8 bytes of a string (`new TextEncoder().encode(s)`). -/
def utf8Bytes (s : String) : List Nat :=
  s.data.foldr (fun c acc => utf8EncodeCharNat c ++ acc) []

/-- Key-decode step of `signMessageWithKey`: base64-decode the stored
private key; a 32-byte seed is expanded with `fromSeed`, a 64-byte value
is used directly. -/
def deriveSecretKey (cp : CryptoPrims) (privateKeyB64 : String) : List Nat :=
  let privateKeyBytes := cp.atob privateKeyB64
  if privateKeyBytes.length = 32 then cp.naclKeyPairFromSeedSecret privateKeyBytes
  else privateKeyBytes

/-- `signMessageWithKey` (background worker): the worker re-implements the
osm1.js sorted-key serialization verbatim (modelled by the shared
`serializePayload`), applies the OSM-1 header with the decimal length,
signs the UTF-8 bytes and base64-encodes the signature. -/
def signMessageWithKey (cp : CryptoPrims) (payload : Payload)
    (privateKeyB64 : String) : String :=
  let secretKey := deriveSecretKey cp privateKeyB64
  let serialized := serializePayload payload
  let fullMessage := MESSAGE_HEADER ++ toString serialized.length ++ "\n" ++ serialized
  cp.btoa (cp.naclSignDetached (utf8Bytes fullMessage) secretKey)

/-- The `\x7bpayload, signature, publicKey, address\x7d` envelope. -/
structure OSM1Response where
  payload : Payload
  signature : String
  publicKey : String
  address : String
deriving Repr

/-- The `signMessage` branch of `handleResolveApproval`: sign with
`wallet.privateKey || wallet.privateKeyB64` and attach the wallet's
public key and address. -/
def signMessageEnvelope (cp : CryptoPrims) (payload : Payload)
    (wallet : Session) : OSM1Response :=
  { payload,
    signature := signMessageWithKey cp payload (jsOrS wallet.privateKey wallet.privateKeyB64),
    publicKey := wallet.publicKeyB64,
    address := wallet.address }

/-- The five diagnostic sub-checks reported by `verifyOSM1Signature`. -/
structure OSM1Validations where
  signatureValid : Bool
  versionValid : Bool
  domainMatch : Bool
  notExpired : Bool
  addressMatch : Bool
deriving DecidableEq, Repr

/-- The result of `verifyOSM1Signature`. -/
structure OSM1VerifyResult where
  valid : Bool
  validations : OSM1Validations
deriving DecidableEq, Repr

/-- `OSM_VERSION` in osm1.js. -/
def OSM_VERSION : String := "OSM-1"

/-- JS truthiness of a payload property value. -/
def jvalTruthy : JVal → Bool
  | .jundef => false
  | .jnull => false
  | .jbool b => b
  | .jnum n => n != 0
  | .jstr s => !s.isEmpty

/-- `verifyOSM1Signature` (osm1.js).  Recompute the signing message from
the received payload and report the five sub-checks: signature validity,
version tag, optional domain match, non-expiry (`Date.now() <
payload.expiresAt` when a truthy `expiresAt` is present; a truthy
non-numeric value compares NaN-like to false), and that the address
equals `'oct' + base58(sha256(publicKey))`.  `valid` is their
conjunction.  (The repository always sets `expiresAt` to a number.) -/
def verifyOSM1Signature (cp : CryptoPrims) (response : OSM1Response)
    (expectedDomain : Option String) (checkExpiry : Bool) (now : Int) :
    OSM1VerifyResult :=
  let signedMessage := createSigningMessage response.payload
  let messageBytes := utf8Bytes signedMessage
  let signature := cp.atob response.signature
  let publicKey := cp.atob response.publicKey
  let signatureValid := cp.naclVerifyDetached messageBytes signature publicKey
  let versionValid :=
    match List.lookup "version" response.payload with
    | some (.jstr s) => s = OSM_VERSION
    | _ => false
  let domainMatch :=
    if truthyS expectedDomain then
      match List.lookup "domain" response.payload with
      | some (.jstr s) => s = expectedDomain.getD ""
      | _ => false
    else true
  let notExpired :=
    if !checkExpiry then true
    else
      match List.lookup "expiresAt" response.payload with
      | some v =>
        if jvalTruthy v then
          match v with
          | .jnum t => decide (now < t)
          | _ => false
        else true
      | none => true
  let publicKeyHash := cp.sha256 publicKey
  let expectedAddress := "oct" ++ base58Encode publicKeyHash
  let addressMatch := expectedAddress = response.address
  { valid := signatureValid && versionValid && domainMatch && notExpired && addressMatch,
    validations := { signatureValid, versionValid, domainMatch, notExpired, addressMatch } }

/-! ### OTX-1 transaction construction and signing -/

/-- An OTX-1 transaction payload.  `timestamp` is `Date.now() / 1000`,
seconds with a fractional part, kept as an exact rational. -/
structure OtxPayload where
  from_ : String
  to_ : String
  amount : String
  nonce : Int
  ou : String
  timestamp : ℚ
deriving DecidableEq, Repr

/-- Options of `createTransactionPayload` for the string-amount branch
(`amount` already in micro-units; a numeric amount is first routed through
`octToMicro(amount.toString())`). -/
structure CtpOptions where
  from_ : String
  -- `to` in the source; `to` is a Lean keyword
  to' : String
  amount : String
  nonce : Int
  message : Option String
deriving DecidableEq, Repr

/-- Result of `createTransactionPayload`. -/
structure CtpResult where
  payload : OtxPayload
  message : Option String
deriving DecidableEq, Repr

/-- `createTransactionPayload` (osm1.js), string-amount branch: keep the
micro-unit string, convert back to whole tokens for the `ou` heuristic
(`'1'` below 1000, `'3'` otherwise), stamp `Date.now() / 1000`. -/
def createTransactionPayload (opts : CtpOptions) (now : Int) : CtpResult :=
  let amountMicro := opts.amount
  let amountNum := microToOct opts.amount
  { payload :=
      { from_ := opts.from_, to_ := opts.to', amount := amountMicro,
        nonce := opts.nonce,
        ou := if amountNum < 1000 then "1" else "3",
        timestamp := (now : ℚ) / 1000 },
    message := opts.message }

/-- The transaction parameters reaching `signTransactionOnly` (after
`params.transaction || params` unwrapping).  `amount` is the string the
worker computes with `typeof txParams.amount === 'string' ? txParams.amount
: String(txParams.amount)`; `fee` is the numeric fee as the exact value of
its double. -/
structure TxParams where
  -- `to` in the source; `to` is a Lean keyword
  to' : Option String
  amount : String
  amountRaw : Option String
  nonce : Option Int
  fee : Option Frac
  message : Option String
deriving DecidableEq, Repr

/-- A signed OTX-1 transaction as returned to the dApp. -/
structure SignedTx where
  from_ : String
  to_ : String
  amount : String
  nonce : Int
  ou : String
  timestamp : ℚ
  message : Option String
  signature : String
  public_key : String
deriving DecidableEq, Repr

/-- `Number(txParams.nonce || Date.now())`: a missing nonce *or a falsy
one (0)* is replaced by `Date.now()`. -/
def jsOrInt (v : Option Int) (d : Int) : Int :=
  match v with
  | some n => if n = 0 then d else n
  | none => d

/-- The `signPayload` string of `signTransactionOnly`:
`JSON.stringify` of exactly the six fields `from, to_, amount, nonce, ou,
timestamp` in that insertion order.  `renderNum` renders the fractional
timestamp the way JS number-to-string does (abstract; its output is
spliced verbatim). -/
def signTxSignPayload (renderNum : ℚ → String) (from_ to_ amountRaw : String)
    (nonce : Int) (ou : String) (timestamp : ℚ) : String :=
  "\x7b\"from\":" ++ renderJStr from_ ++
  ",\"to_\":" ++ renderJStr to_ ++
  ",\"amount\":" ++ renderJStr amountRaw ++
  ",\"nonce\":" ++ toString nonce ++
  ",\"ou\":" ++ renderJStr ou ++
  ",\"timestamp\":" ++ renderNum timestamp ++ "\x7d"

/-- `signTransactionOnly` (background worker).  Amount: a truthy
`amountRaw` wins, otherwise `Math.floor(parseFloat(amount) * 1e6)`.
Nonce: `Number(txParams.nonce || Date.now())`.  `ou`: `String(Math.floor(
fee * 1e6))` for a truthy fee, else the constant `'2000'`.  The bytes
signed are the UTF-8 of `signTxSignPayload`; `message`, when truthy, is
attached to the returned transaction but not to the signed bytes.  The
`!tx.from || !tx.to_` validation throws before signing (`isNaN(nonce)`
cannot fire on integral nonces). -/
def signTransactionOnly (cp : CryptoPrims) (renderNum : ℚ → String)
    (params : TxParams) (wallet : Session) (now : Int) :
    Except String SignedTx :=
  let privateKey := jsOrS wallet.privateKey wallet.privateKeyB64
  let from_ := wallet.address
  let amountRaw :=
    if truthyS params.amountRaw then params.amountRaw.getD ""
    else jsFloorMul1e6 params.amount
  let nonce := jsOrInt params.nonce now
  let timestamp : ℚ := (now : ℚ) / 1000
  let ou :=
    match params.fee with
    | some f =>
      if f.num ≠ 0 then toString ((roundToDouble (f.mulF ⟨1000000, 1⟩)).floorF)
      else "2000"
    | none => "2000"
  if !(!from_.isEmpty) || !truthyS params.to' then
    Except.error "Invalid transaction parameters: From and To are required"
  else
    let to_ := params.to'.getD ""
    let signPayload := signTxSignPayload renderNum from_ to_ amountRaw nonce ou timestamp
    let messageBytes := utf8Bytes signPayload
    let seedBytes := cp.atob privateKey
    let secretKey := cp.naclKeyPairFromSeedSecret seedBytes
    let signature := cp.btoa (cp.naclSignDetached messageBytes secretKey)
    Except.ok
      { from_, to_, amount := amountRaw, nonce, ou, timestamp,
        message := if truthyS params.message then params.message else none,
        signature, public_key := wallet.publicKeyB64 }

/-- Result of `signAndBroadcastTransaction`. -/
structure BroadcastResult where
  signedTransaction : SignedTx
  txHash : String
  broadcast : Bool
deriving DecidableEq, Repr

/-- `signAndBroadcastTransaction` (background worker): reuse
`signTransactionOnly`, then POST to `/send-tx` (`rpcBroadcast`, external);
a broadcast failure is fatal to the call. -/
def signAndBroadcastTransaction (cp : CryptoPrims) (renderNum : ℚ → String)
    (params : TxParams) (wallet : Session) (now : Int)
    (rpcBroadcast : SignedTx → Except String String) :
    Except String BroadcastResult := do
  let signed ← signTransactionOnly cp renderNum params wallet now
  let txHash ← rpcBroadcast signed
  return { signedTransaction := signed, txHash, broadcast := true }

/-! ### Characterization helpers and concrete instances used by theorems -/

instance {ε α : Type} [DecidableEq ε] [DecidableEq α] :
    DecidableEq (Except ε α) := fun a b =>
  match a, b with
  | .ok x, .ok y =>
    if h : x = y then isTrue (by rw [h]) else isFalse (by simp [h])
  | .error x, .error y =>
    if h : x = y then isTrue (by rw [h]) else isFalse (by simp [h])
  | .ok _, .error _ => isFalse (by simp)
  | .error _, .ok _ => isFalse (by simp)

/-- The session (cache first, then session storage) `getWalletFromStorage`
operates on. -/
def sessionOf (cache storage : Option Session) : Option Session :=
  match cache with
  | some s => some s
  | none => storage

/-- Whether the zero-trust decryption path succeeds on a session: both the
ciphertext and the in-memory key are truthy and decryption yields a truthy
plaintext. -/
def decryptSucceedsB (decrypt : String → String → Option String)
    (s : Session) (key : Option String) : Bool :=
  (truthyS s.encryptedPrivateKey && truthyS key) &&
    match decrypt (s.encryptedPrivateKey.getD "") (key.getD "") with
    | some p => !p.isEmpty
    | none => false

/-- Whether a `getWalletFromStorage` result carries a usable plaintext
signing key. -/
def usableKey : Option Session → Bool
  | some w => truthyS w.privateKey || truthyS w.privateKeyB64
  | none => false

/-- A concrete instantiation of the external crypto capabilities, used by
witnesses: signatures are message-plus-key, verification recomputes them,
hash is the identity, and the codec maps bytes to the characters with
those code points. -/
def demoPrims : CryptoPrims :=
  { naclSignDetached := fun m sk => m ++ sk,
    naclVerifyDetached := fun m s pk => s == m ++ pk,
    naclKeyPairFromSeedSecret := fun seed => seed,
    sha256 := fun b => b,
    atob := fun s => s.data.map Char.toNat,
    btoa := fun b => String.mk (b.map Char.ofNat) }

/-- A concrete number renderer for witnesses. -/
def demoRender : ℚ → String := fun _ => "0"

/-- A concrete unlocked wallet session for witnesses.  Its address is
`"oct" ++ base58Encode (demoPrims.sha256 (demoPrims.atob "K"))`. -/
def demoWallet : Session :=
  { address := "oct2J", publicKeyB64 := "K",
    encryptedPrivateKey := none, privateKey := some "K",
    privateKeyB64 := none, network := none }

/-- A persisted session carrying only a legacy plaintext key. -/
def legacySession : Session :=
  { address := "octAddr", publicKeyB64 := "PK",
    encryptedPrivateKey := none, privateKey := some "legacy-plain-key",
    privateKeyB64 := none, network := none }

/-- A connected per-origin record for a demo origin. -/
def demoConnOn : Connection :=
  { origin := "https://dapp.example", title := none, favicon := none,
    address := "octAddr1", connected := true, connectedAt := 1000,
    networkId := some "mainnet", chainId := some 2 }

/-- A disconnected per-origin record for a demo origin. -/
def demoConnOff : Connection :=
  { origin := "https://d.app", title := none, favicon := none,
    address := "octAddr2", connected := false, connectedAt := 900,
    networkId := none, chainId := none }

/-- Drop the `undefined`-valued properties of a payload (the effect of the
`!== undefined` check inside `serializePayload`). -/
def dropUndef (r : Payload) : Payload :=
  r.filter (fun kv => decide (kv.2 ≠ JVal.jundef))

/-- The per-key field renderer inside `serializePayload`. -/
def fieldOf (r : Payload) (k : String) : Option String :=
  match List.lookup k r with
  | some v => if v = JVal.jundef then none else some (renderJStr k ++ ":" ++ renderJVal v)
  | none => none

/-- A concrete OSM-1 payload for witnesses. -/
def demoPayload : Payload :=
  [("message", JVal.jstr "hi"), ("version", JVal.jstr "OSM-1")]

/-- Demo transaction parameters with an explicit nonce of 0. -/
def demoParamsNonce0 : TxParams :=
  { to' := some "octTo", amount := "1", amountRaw := some "1000000",
    nonce := some 0, fee := none, message := none }

/-- Demo transaction parameters carrying an explicit fee of 0.003 whole
tokens. -/
def demoParamsFee : TxParams :=
  { to' := some "octTo", amount := "1", amountRaw := some "1000000",
    nonce := some 5, fee := some ⟨3, 1000⟩, message := none }

/-! ## Theorems -/

/-- C7: the exact decimal-string conversion `octToMicro` satisfies the
spec's identities, but the transaction-signing path does *not* use it:
`signTransactionOnly` computes `Math.floor(parseFloat(amount) * 1e6)`
in binary64 arithmetic (`jsFloorMul1e6`), and at the amount `"8.2"` the
two differ — the signed amount loses one micro-unit.  This contradicts
the claim that every conversion path is the exact algorithm. -/
theorem C7_amount_conversion_float_bug :
    octToMicro "1.5" = "1500000" ∧
    octToMicro "0.000001" = "1" ∧
    microToOct "1500000" = (1.5 : ℚ) ∧
    octToMicro "8.2" = "8200000" ∧
    jsFloorMul1e6 "8.2" = "8199999" ∧
    jsFloorMul1e6 "8.2" ≠ octToMicro "8.2" := by
  refine ⟨by decide, by decide, ?_, by decide, by decide, by decide⟩
  have h : digitsVal "1500000".data = 1500000 := by decide
  unfold microToOct
  rw [h]
  norm_num

/-- C9 (counterexample): the in-page provider's per-call timeout *does*
remove the correlation-table entry, but it rejects with the structured
error `\x7bcode: 4100, message: 'Request timeout'\x7d`, not with the
taxonomy's request-timeout code 4900 as claimed. -/
theorem C9_counterexample :
    (fireTimeout ⟨1, [1]⟩ 1).1.pending = [] ∧
    (fireTimeout ⟨1, [1]⟩ 1).2 =
      some (Settle.reject { code := 4100, message := "Request timeout" }) ∧
    ¬ (fireTimeout ⟨1, [1]⟩ 1).2 =
      some (Settle.reject { code := 4900, message := "Request timeout" }) := by
  decide

/-- C9 (amended): after 300 seconds (300000 ms) without a matching
response, the provider removes the correlation-table entry for the
request id and rejects the pending promise with the structured error
`\x7bcode: 4100, message: 'Request timeout'\x7d` (the source reuses the
not-connected code 4100 for its timeout rejection rather than 4900). -/
theorem C9_timeout_amended (st : ProviderState) (id : Nat)
    (h : id ∈ st.pending) :
    REQUEST_TIMEOUT_MS = 300000 ∧
    (fireTimeout st id).1.pending = st.pending.erase id ∧
    (fireTimeout st id).2 =
      some (Settle.reject { code := 4100, message := "Request timeout" }) := by
  refine ⟨rfl, ?_, ?_⟩ <;> simp [fireTimeout, h]

/-- C9 witness: the amended timeout behaviour at a concrete state. -/
theorem C9_witness :
    2 ∈ ([2, 3] : List Nat) ∧
    (REQUEST_TIMEOUT_MS = 300000 ∧
     (fireTimeout ⟨3, [2, 3]⟩ 2).1.pending = ([2, 3] : List Nat).erase 2 ∧
     (fireTimeout ⟨3, [2, 3]⟩ 2).2 =
       some (Settle.reject { code := 4100, message := "Request timeout" })) :=
  ⟨by decide, C9_timeout_amended ⟨3, [2, 3]⟩ 2 (by decide)⟩

/-- C2 (counterexample): a pending approval created at time 0 is expired
at time 300001 ms; `clearExpiredRequests` removes it from the map but
issues no rejection of its continuation — the sweep only deletes,
contradicting the claim that the expired approval's continuation is
rejected with a timeout error by the sweep. -/
theorem C2_counterexample :
    (clearExpiredRequests 300001 ⟨[(1, ⟨0⟩)]⟩).1.pendingRequests = [] ∧
    (clearExpiredRequests 300001 ⟨[(1, ⟨0⟩)]⟩).2 = [] := by
  decide

/-- C2 (amended): the sweep `clearExpiredRequests` purges every record
older than 5 minutes (300000 ms) but settles no continuation; the
background `dappApprovals` map, which holds the resolve/reject
continuations, is never swept at all.  The originating dApp promise is
instead bounded by the in-page provider's own 300-second timeout, which
rejects it with `\x7bcode: 4100, message: 'Request timeout'\x7d`. -/
theorem C2_sweep_amended (now : Int) (st : DappServiceState)
    (pst : ProviderState) (id : Nat) (h : id ∈ pst.pending) :
    APPROVAL_EXPIRY_MS = 300000 ∧
    (clearExpiredRequests now st).1.pendingRequests =
      st.pendingRequests.filter
        (fun kv => !(now - kv.2.createdAt > APPROVAL_EXPIRY_MS)) ∧
    (clearExpiredRequests now st).2 = [] ∧
    (fireTimeout pst id).2 =
      some (Settle.reject { code := 4100, message := "Request timeout" }) := by
  refine ⟨rfl, rfl, rfl, ?_⟩
  simp [fireTimeout, h]

/-- C2 witness: the amended sweep behaviour at a concrete state. -/
theorem C2_witness :
    4 ∈ ([4] : List Nat) ∧
    (APPROVAL_EXPIRY_MS = 300000 ∧
     (clearExpiredRequests 600000 ⟨[(1, ⟨0⟩), (2, ⟨400000⟩)]⟩).1.pendingRequests =
       ([(1, (⟨0⟩ : PendingRecord)), (2, ⟨400000⟩)]).filter
         (fun kv => !(600000 - kv.2.createdAt > APPROVAL_EXPIRY_MS)) ∧
     (clearExpiredRequests 600000 ⟨[(1, ⟨0⟩), (2, ⟨400000⟩)]⟩).2 = [] ∧
     (fireTimeout ⟨7, [4]⟩ 4).2 =
       some (Settle.reject { code := 4100, message := "Request timeout" })) :=
  ⟨by decide, C2_sweep_amended 600000 ⟨[(1, ⟨0⟩), (2, ⟨400000⟩)]⟩ ⟨7, [4]⟩ 4 (by decide)⟩

/-- C1 (counterexample): a persisted session that carries a legacy
plaintext `privateKey` is returned with that usable key even though
`encryptedPrivateKey` is absent, the in-memory `SessionKey` is absent,
and decryption never succeeds — contradicting the claim that the
function returns null in every case where either half is missing. -/
theorem C1_counterexample :
    getWalletFromStorage (fun _ _ => none) (some legacySession) none none =
      some legacySession ∧
    truthyS legacySession.privateKey = true ∧
    legacySession.encryptedPrivateKey = none := by
  decide

/-- Truthiness of a present string property. -/
theorem truthyS_some (x : String) : truthyS (some x) = !x.isEmpty := rfl

/-- Case analysis of `getWalletFromStorage` on a present session: the
result is usable iff it is non-null, iff decryption succeeds or a legacy
plaintext key is present. -/
theorem walletFromSession_char (decrypt : String → String → Option String)
    (s : Session) (key : Option String) :
    usableKey (getWalletFromStorage decrypt (some s) none key) =
      (getWalletFromStorage decrypt (some s) none key).isSome ∧
    (getWalletFromStorage decrypt (some s) none key).isSome =
      (decryptSucceedsB decrypt s key ||
        (truthyS s.privateKey || truthyS s.privateKeyB64)) := by
  cases hA : (truthyS s.encryptedPrivateKey && truthyS key) with
  | false =>
    cases hp1 : truthyS s.privateKey <;> cases hp2 : truthyS s.privateKeyB64 <;>
      simp [getWalletFromStorage, decryptSucceedsB, usableKey, hA, hp1, hp2]
  | true =>
    cases hd : decrypt (s.encryptedPrivateKey.getD "") (key.getD "") with
    | none =>
      cases hp1 : truthyS s.privateKey <;> cases hp2 : truthyS s.privateKeyB64 <;>
        simp [getWalletFromStorage, decryptSucceedsB, usableKey, hA, hd, hp1, hp2]
    | some p =>
      cases hp : p.isEmpty <;>
        cases hp1 : truthyS s.privateKey <;> cases hp2 : truthyS s.privateKeyB64 <;>
          simp [getWalletFromStorage, decryptSucceedsB, usableKey, truthyS_some,
            hA, hd, hp, hp1, hp2]

/-- C1 (amended): `getWalletFromStorage` returns a wallet exactly when it
can produce a usable plaintext key, and it can do so iff either the
zero-trust path succeeds (truthy `Session.encryptedPrivateKey`, truthy
in-memory `SessionKey`, and decryption yields a truthy plaintext) *or*
the session itself already carries a truthy legacy plaintext
`privateKey`/`privateKeyB64`; in every other case it reports locked by
returning null. -/
theorem C1_locked_iff_amended (decrypt : String → String → Option String)
    (cache storage : Option Session) (key : Option String) :
    usableKey (getWalletFromStorage decrypt cache storage key) =
      (getWalletFromStorage decrypt cache storage key).isSome ∧
    (getWalletFromStorage decrypt cache storage key).isSome =
      (match sessionOf cache storage with
       | some s =>
         decryptSucceedsB decrypt s key ||
           (truthyS s.privateKey || truthyS s.privateKeyB64)
       | none => false) := by
  cases cache with
  | some s => exact walletFromSession_char decrypt s key
  | none =>
    cases storage with
    | some s => exact walletFromSession_char decrypt s key
    | none => exact ⟨rfl, rfl⟩

/-- C3 (counterexample): a `connect` request from an origin that already
holds an active Connection resolves immediately with the stored account —
no `PendingApproval` is created and no approval UI opens — even though
the method is itself a connect request.  This contradicts both halves of
the claim: not every connect request creates a PendingApproval, and the
fast path does apply to connect requests. -/
theorem C3_counterexample :
    demoConnOn.connected = true ∧
    handleConnectStep [("https://dapp.example", demoConnOn)] "https://dapp.example" =
      ConnectStep.immediate
        { accounts := ["octAddr1"], selectedAddress := "octAddr1",
          networkId := "mainnet", chainId := 2 } ∧
    handleConnectStep [("https://dapp.example", demoConnOn)] "https://dapp.example" ≠
      ConnectStep.approvalRequested "connect" "https://dapp.example" := by
  decide

/-- C3 (amended): the connect fast path fires exactly when the origin
already holds a `connected` Connection — including for connect requests
themselves, which then resolve immediately with the stored account.  A
connect from any other origin (no record, or a disconnected one) creates
a `connect` `PendingApproval` and opens a dedicated approval popup whose
URL carries only the approval id. -/
theorem C3_connect_fast_path_amended (conns : List (String × Connection))
    (origin : String) :
    (∀ c, List.lookup origin conns = some c → c.connected = true →
      handleConnectStep conns origin =
        ConnectStep.immediate
          { accounts := [c.address], selectedAddress := c.address,
            networkId := c.networkId.getD "testnet",
            chainId := c.chainId.getD 2 }) ∧
    (∀ c, List.lookup origin conns = some c → c.connected = false →
      handleConnectStep conns origin =
        ConnectStep.approvalRequested "connect" origin) ∧
    (List.lookup origin conns = none →
      handleConnectStep conns origin =
        ConnectStep.approvalRequested "connect" origin) ∧
    (∀ approvalId type now,
      (requestApprovalEffect approvalId type origin now).1 =
        { type := type, origin := origin, timestamp := now } ∧
      (requestApprovalEffect approvalId type origin now).2 =
        { url := "index.html#/dapp/approve?id=" ++ approvalId,
          windowType := "popup", width := 360, height := 600 }) := by
  refine ⟨?_, ?_, ?_, ?_⟩
  · intro c hl hc
    simp [handleConnectStep, hl, hc]
  · intro c hl hc
    simp [handleConnectStep, hl, hc]
  · intro hl
    simp [handleConnectStep, hl]
  · intro approvalId type now
    exact ⟨rfl, rfl⟩

/-- C3 witness: the amended behaviour at concrete inputs — a connect from
an origin with a disconnected record creates the approval. -/
theorem C3_witness :
    List.lookup "https://d.app" [("https://d.app", demoConnOff)] = some demoConnOff ∧
    demoConnOff.connected = false ∧
    handleConnectStep [("https://d.app", demoConnOff)] "https://d.app" =
      ConnectStep.approvalRequested "connect" "https://d.app" :=
  ⟨by decide, by decide,
    (C3_connect_fast_path_amended [("https://d.app", demoConnOff)] "https://d.app").2.1
      demoConnOff (by decide) (by decide)⟩

/-- C10: an explicitly supplied nonce of 0 survives `ensureNonce` (which
fires only for `undefined`/`null`) but is then silently replaced by
`Date.now()` in `signTransactionOnly`, because `Number(txParams.nonce ||
Date.now())` treats 0 as falsy — so the signed transaction's nonce is the
timestamp, never 0. -/
theorem C10_zero_nonce_replaced (cp : CryptoPrims) (rn : ℚ → String)
    (params : TxParams) (wallet : Session) (now : Int) (fetch : Option Int)
    (hz : params.nonce = some 0)
    (hfrom : wallet.address.isEmpty = false)
    (hto : truthyS params.to' = true)
    (hnow : now ≠ 0) :
    ensureNonce fetch params.nonce now = some 0 ∧
    (signTransactionOnly cp rn params wallet now).map (fun tx => tx.nonce) =
      Except.ok now ∧
    (signTransactionOnly cp rn params wallet now).map (fun tx => tx.nonce) ≠
      Except.ok 0 := by
  have hmap : (signTransactionOnly cp rn params wallet now).map (fun tx => tx.nonce) =
      Except.ok now := by
    unfold signTransactionOnly
    simp [hfrom, hto, hz, jsOrInt, Except.map]
  refine ⟨by rw [hz]; rfl, hmap, ?_⟩
  rw [hmap]
  simp [hnow]

/-- C10 witness: the zero-nonce replacement at concrete inputs. -/
theorem C10_witness :
    demoParamsNonce0.nonce = some 0 ∧
    demoWallet.address.isEmpty = false ∧
    truthyS demoParamsNonce0.to' = true ∧
    (1700000000000 : Int) ≠ 0 ∧
    (ensureNonce none demoParamsNonce0.nonce 1700000000000 = some 0 ∧
     (signTransactionOnly demoPrims demoRender demoParamsNonce0 demoWallet
         1700000000000).map (fun tx => tx.nonce) = Except.ok 1700000000000 ∧
     (signTransactionOnly demoPrims demoRender demoParamsNonce0 demoWallet
         1700000000000).map (fun tx => tx.nonce) ≠ Except.ok 0) :=
  ⟨by decide, by decide, by decide, by decide,
    C10_zero_nonce_replaced demoPrims demoRender demoParamsNonce0 demoWallet
      1700000000000 none (by decide) (by decide) (by decide) (by decide)⟩

/-- C8 (counterexample): the transaction payloads actually constructed for
dApp signing (`signTransactionOnly`) carry `ou = "2000"` for a 0.5-token
amount *and* for a 2000-token amount — the same tag on both sides of the
format layer's 1000-token threshold, and a tag distinct from both of the
heuristic's values (`'1'`/`'3'`, as `createTransactionPayload` computes
them for the same amounts).  So `ou` is not selected by the amount
threshold on every constructed payload. -/
theorem C8_counterexample :
    (createTransactionPayload
        { from_ := "octFrom", to' := "octTo", amount := "500000",
          nonce := 5, message := none } 1700000000000).payload.ou = "1" ∧
    (createTransactionPayload
        { from_ := "octFrom", to' := "octTo", amount := "2000000000",
          nonce := 5, message := none } 1700000000000).payload.ou = "3" ∧
    (signTransactionOnly demoPrims demoRender
        { to' := some "octTo", amount := "0.5", amountRaw := some "500000",
          nonce := some 5, fee := none, message := none }
        demoWallet 1700000000000).map (fun tx => tx.ou) = Except.ok "2000" ∧
    (signTransactionOnly demoPrims demoRender
        { to' := some "octTo", amount := "2000", amountRaw := some "2000000000",
          nonce := some 5, fee := none, message := none }
        demoWallet 1700000000000).map (fun tx => tx.ou) = Except.ok "2000" := by
  have h1 : microToOct "500000" < 1000 := by
    have h : digitsVal "500000".data = 500000 := by decide
    unfold microToOct
    rw [h]
    norm_num
  have h2 : ¬ microToOct "2000000000" < 1000 := by
    have h : digitsVal "2000000000".data = 2000000000 := by decide
    unfold microToOct
    rw [h]
    norm_num
  refine ⟨?_, ?_, ?_, ?_⟩
  · simp [createTransactionPayload, h1]
  · simp [createTransactionPayload, h2]
  · unfold signTransactionOnly
    simp [demoWallet, Except.map]
    decide
  · unfold signTransactionOnly
    simp [demoWallet, Except.map]
    decide

/-- C8 (amended): the amount-threshold heuristic lives only in the format
layer's `createTransactionPayload` (`'1'` below 1000 whole tokens, `'3'`
otherwise); the background `signTransactionOnly` path that constructs
every dApp-signed payload instead sets `ou` by the fee alone, covering
every fee shape: `String(Math.floor(fee * 1e6))` for a truthy fee, and
the constant `"2000"` when the fee is absent or 0 (falsy). -/
theorem C8_ou_amended (opts : CtpOptions) (now : Int) (cp : CryptoPrims)
    (rn : ℚ → String) (params : TxParams) (wallet : Session) (now2 : Int)
    (hfrom : wallet.address.isEmpty = false)
    (hto : truthyS params.to' = true) :
    (createTransactionPayload opts now).payload.ou =
      (if microToOct opts.amount < 1000 then "1" else "3") ∧
    (params.fee = none →
      (signTransactionOnly cp rn params wallet now2).map (fun tx => tx.ou) =
        Except.ok "2000") ∧
    (∀ f, params.fee = some f → f.num ≠ 0 →
      (signTransactionOnly cp rn params wallet now2).map (fun tx => tx.ou) =
        Except.ok (toString ((roundToDouble (f.mulF ⟨1000000, 1⟩)).floorF))) ∧
    (∀ f, params.fee = some f → f.num = 0 →
      (signTransactionOnly cp rn params wallet now2).map (fun tx => tx.ou) =
        Except.ok "2000") := by
  refine ⟨rfl, ?_, ?_, ?_⟩
  · intro hfee
    unfold signTransactionOnly
    simp [hfee, hfrom, hto, Except.map]
  · intro f hsome hne
    unfold signTransactionOnly
    simp [hsome, hne, hfrom, hto, Except.map]
  · intro f hsome hzero
    unfold signTransactionOnly
    simp [hsome, hzero, hfrom, hto, Except.map]

/-- C8 witness: the amended `ou` selection at concrete inputs, exercising
both the no-fee default and the truthy-fee `Math.floor(fee * 1e6)`
branch (fee 0.003 → `ou = "3000"`). -/
theorem C8_witness :
    demoWallet.address.isEmpty = false ∧
    truthyS demoParamsNonce0.to' = true ∧
    demoParamsNonce0.fee = none ∧
    demoParamsFee.fee = some ⟨3, 1000⟩ ∧
    ((3 : Int) : Int) ≠ 0 ∧
    ((createTransactionPayload
        { from_ := "octFrom", to' := "octTo", amount := "500000",
          nonce := 5, message := none } 1700000000000).payload.ou =
      (if microToOct "500000" < 1000 then "1" else "3")) ∧
    ((signTransactionOnly demoPrims demoRender demoParamsNonce0 demoWallet
        1700000000000).map (fun tx => tx.ou) = Except.ok "2000") ∧
    ((signTransactionOnly demoPrims demoRender demoParamsFee demoWallet
        1700000000000).map (fun tx => tx.ou) =
      Except.ok (toString (((⟨3, 1000⟩ : Frac).mulF ⟨1000000, 1⟩ |>
        roundToDouble).floorF))) :=
  ⟨by decide, by decide, by decide, by decide, by decide,
    (C8_ou_amended
      { from_ := "octFrom", to' := "octTo", amount := "500000",
        nonce := 5, message := none } 1700000000000
      demoPrims demoRender demoParamsNonce0 demoWallet 1700000000000
      (by decide) (by decide)).1,
    (C8_ou_amended
      { from_ := "octFrom", to' := "octTo", amount := "500000",
        nonce := 5, message := none } 1700000000000
      demoPrims demoRender demoParamsNonce0 demoWallet 1700000000000
      (by decide) (by decide)).2.1 (by decide),
    (C8_ou_amended
      { from_ := "octFrom", to' := "octTo", amount := "500000",
        nonce := 5, message := none } 1700000000000
      demoPrims demoRender demoParamsFee demoWallet 1700000000000
      (by decide) (by decide)).2.2.1 ⟨3, 1000⟩ (by decide) (by decide)⟩

/-- C6: on both the `signTransaction` and the `sendTransaction` paths, the
bytes handed to the signature primitive are exactly the UTF-8 encoding of
the compact JSON of the six fields `from, to_, amount, nonce, ou,
timestamp` in that insertion order (`signTxSignPayload`); the signature is
invariant in the optional `message`, which is nevertheless attached to
the returned signed transaction when truthy. -/
theorem C6_signed_bytes_exact (cp : CryptoPrims) (rn : ℚ → String)
    (params : TxParams) (wallet : Session) (now : Int)
    (hfrom : wallet.address.isEmpty = false)
    (hto : truthyS params.to' = true) :
    (signTransactionOnly cp rn params wallet now).map (fun tx => tx.signature) =
      Except.ok (cp.btoa (cp.naclSignDetached
        (utf8Bytes (signTxSignPayload rn wallet.address (params.to'.getD "")
          (if truthyS params.amountRaw then params.amountRaw.getD ""
           else jsFloorMul1e6 params.amount)
          (jsOrInt params.nonce now)
          (match params.fee with
           | some f =>
             if f.num ≠ 0 then
               toString ((roundToDouble (f.mulF ⟨1000000, 1⟩)).floorF)
             else "2000"
           | none => "2000")
          ((now : ℚ) / 1000)))
        (cp.naclKeyPairFromSeedSecret
          (cp.atob (jsOrS wallet.privateKey wallet.privateKeyB64))))) ∧
    (signTransactionOnly cp rn params wallet now).map (fun tx => tx.signature) =
      (signTransactionOnly cp rn { params with message := none } wallet now).map
        (fun tx => tx.signature) ∧
    (signTransactionOnly cp rn params wallet now).map (fun tx => tx.message) =
      Except.ok (if truthyS params.message then params.message else none) ∧
    (∀ rpc br,
      signAndBroadcastTransaction cp rn params wallet now rpc = Except.ok br →
      signTransactionOnly cp rn params wallet now = Except.ok br.signedTransaction) := by
  refine ⟨?_, ?_, ?_, ?_⟩
  · unfold signTransactionOnly
    simp [hfrom, hto, Except.map]
  · unfold signTransactionOnly
    simp [hfrom, hto, Except.map]
  · unfold signTransactionOnly
    simp [hfrom, hto, Except.map]
  · intro rpc br h
    cases hs : signTransactionOnly cp rn params wallet now with
    | error e =>
      rw [signAndBroadcastTransaction, hs] at h
      simp [Except.bind, Bind.bind, Except.map, Functor.map, Except.instMonad,
        pure, Except.pure] at h
    | ok s =>
      rw [signAndBroadcastTransaction, hs] at h
      simp only [Except.bind, Bind.bind, Except.map, Functor.map,
        Except.instMonad, pure, Except.pure] at h
      cases hr : rpc s with
      | error e2 =>
        rw [hr] at h
        simp at h
      | ok t =>
        rw [hr] at h
        simp at h
        rw [← h]

/-- C6 witness: the signed-bytes contract at concrete inputs. -/
theorem C6_witness :
    demoWallet.address.isEmpty = false ∧
    truthyS demoParamsNonce0.to' = true ∧
    (signTransactionOnly demoPrims demoRender demoParamsNonce0 demoWallet
        1700000000000).map (fun tx => tx.message) =
      Except.ok (if truthyS demoParamsNonce0.message then demoParamsNonce0.message
                 else none) :=
  ⟨by decide, by decide,
    (C6_signed_bytes_exact demoPrims demoRender demoParamsNonce0 demoWallet
      1700000000000 (by decide) (by decide)).2.2.1⟩

/-! ### Order and lookup infrastructure for the canonicalization claims -/

theorem char_eq_of_toNat_eq {a b : Char} (h : a.toNat = b.toNat) : a = b := by
  apply Char.eq_of_val_eq
  apply UInt32.eq_of_toBitVec_eq
  exact BitVec.eq_of_toNat_eq (by simpa [UInt32.toNat] using h)

theorem charListLe_total : ∀ a b : List Char,
    charListLe a b = true ∨ charListLe b a = true
  | [], _ => Or.inl rfl
  | _ :: _, [] => Or.inr rfl
  | a :: as, b :: bs => by
    rcases Nat.lt_trichotomy a.toNat b.toNat with h | h | h
    · left; simp [charListLe, h]
    · rcases charListLe_total as bs with ht | ht
      · left; simp [charListLe, h, ht]
      · right; simp [charListLe, h.symm, ht]
    · right; simp [charListLe, h]

theorem charListLe_trans : ∀ a b c : List Char,
    charListLe a b = true → charListLe b c = true → charListLe a c = true
  | [], _, _, _, _ => rfl
  | _ :: _, [], _, hab, _ => by simp [charListLe] at hab
  | _ :: _, _ :: _, [], _, hbc => by simp [charListLe] at hbc
  | x :: xs, y :: ys, z :: zs, hab, hbc => by
    rcases Nat.lt_trichotomy x.toNat y.toNat with h1 | h1 | h1 <;>
      rcases Nat.lt_trichotomy y.toNat z.toNat with h2 | h2 | h2
    · simp [charListLe, show x.toNat < z.toNat from h1.trans h2]
    · simp [charListLe, show x.toNat < z.toNat from h2 ▸ h1]
    · simp [charListLe, Nat.lt_asymm h2, h2] at hbc
    · simp [charListLe, show x.toNat < z.toNat from h1 ▸ h2]
    · simp only [charListLe] at hab hbc ⊢
      rw [if_neg (by omega), if_neg (by omega)] at hab
      rw [if_neg (by omega), if_neg (by omega)] at hbc
      rw [if_neg (by omega), if_neg (by omega)]
      exact charListLe_trans xs ys zs hab hbc
    · simp [charListLe, Nat.lt_asymm h2, h2] at hbc
    · simp [charListLe, Nat.lt_asymm h1, h1] at hab
    · simp [charListLe, Nat.lt_asymm h1, h1] at hab
    · simp [charListLe, Nat.lt_asymm h1, h1] at hab

theorem charListLe_antisymm : ∀ a b : List Char,
    charListLe a b = true → charListLe b a = true → a = b
  | [], [], _, _ => rfl
  | [], _ :: _, _, hba => by simp [charListLe] at hba
  | _ :: _, [], hab, _ => by simp [charListLe] at hab
  | x :: xs, y :: ys, hab, hba => by
    rcases Nat.lt_trichotomy x.toNat y.toNat with h1 | h1 | h1
    · simp [charListLe, Nat.lt_asymm h1, h1] at hba
    · have hx : x = y := char_eq_of_toNat_eq h1
      subst hx
      simp only [charListLe] at hab hba
      rw [if_neg (by omega), if_neg (by omega)] at hab
      rw [if_neg (by omega), if_neg (by omega)] at hba
      rw [charListLe_antisymm xs ys hab hba]
    · simp [charListLe, Nat.lt_asymm h1, h1] at hab

instance : IsTotal String keyLe :=
  ⟨fun a b => charListLe_total a.data b.data⟩

instance : IsTrans String keyLe :=
  ⟨fun a b c hab hbc => charListLe_trans a.data b.data c.data hab hbc⟩

instance : IsAntisymm String keyLe :=
  ⟨fun a b hab hba =>
    congrArg String.mk (charListLe_antisymm a.data b.data hab hba)⟩

/-- `List.lookup` is invariant under permutation of a list with no
duplicate keys. -/
theorem lookup_eq_of_perm (k : String) :
    ∀ {p q : Payload}, p.Perm q → (payloadKeys p).Nodup →
      List.lookup k p = List.lookup k q := by
  intro p q hperm
  induction hperm with
  | nil => intro _; rfl
  | cons x h ih =>
    intro hnd
    simp only [payloadKeys, List.map_cons, List.nodup_cons] at hnd
    rw [List.lookup_cons, List.lookup_cons]
    cases hx : k == x.1 with
    | true => rfl
    | false => exact ih hnd.2
  | swap x y l =>
    intro hnd
    have hxy : y.1 ≠ x.1 := by
      simp only [payloadKeys, List.map_cons, List.nodup_cons, List.mem_cons] at hnd
      exact fun hEq => hnd.1 (Or.inl hEq)
    rw [List.lookup_cons, List.lookup_cons, List.lookup_cons, List.lookup_cons]
    cases hy : k == y.1 with
    | true =>
      cases hx : k == x.1 with
      | true => exact absurd ((eq_of_beq hy).symm.trans (eq_of_beq hx)) hxy
      | false => rfl
    | false =>
      cases hx : k == x.1 with
      | true => rfl
      | false => rfl
  | trans h₁ h₂ ih₁ ih₂ =>
    intro hnd
    have hnd₂ := (List.Perm.nodup_iff (h₁.map Prod.fst)).mp hnd
    exact (ih₁ hnd).trans (ih₂ hnd₂)

theorem serializePayload_eq_fieldOf (r : Payload) :
    serializePayload r =
      "\x7b" ++ String.intercalate ","
        ((List.insertionSort keyLe (payloadKeys r)).filterMap (fieldOf r)) ++ "\x7d" := rfl

theorem lookup_none_of_not_mem_keys {k : String} {r : Payload}
    (h : k ∉ payloadKeys r) : List.lookup k r = none := by
  rw [List.lookup_eq_none_iff]
  intro p hp
  simp only [bne_iff_ne, ne_eq]
  intro hEq
  exact h (by rw [hEq]; exact List.mem_map_of_mem Prod.fst hp)

theorem filterMap_congr_mem {α β : Type} (f g : α → Option β) :
    ∀ (l : List α), (∀ x ∈ l, f x = g x) → l.filterMap f = l.filterMap g
  | [], _ => rfl
  | x :: t, h => by
    rw [List.filterMap_cons, List.filterMap_cons, h x (List.mem_cons_self x t),
      filterMap_congr_mem f g t (fun y hy => h y (List.mem_cons_of_mem x hy))]

theorem filterMap_filter_of_none {α β : Type} (f : α → Option β) (p : α → Bool) :
    ∀ (l : List α), (∀ x ∈ l, p x = false → f x = none) →
      l.filterMap f = (l.filter p).filterMap f
  | [], _ => rfl
  | x :: t, h => by
    have ht := filterMap_filter_of_none f p t
      (fun y hy hp => h y (List.mem_cons_of_mem x hy) hp)
    rw [List.filterMap_cons, List.filter_cons]
    cases hp : p x with
    | true =>
      rw [if_pos rfl, List.filterMap_cons, ht]
    | false =>
      rw [h x (List.mem_cons_self x t) hp, if_neg (by simp), ht]

theorem lookup_filter (pred : String × JVal → Bool) (k : String) :
    ∀ (r : Payload), (payloadKeys r).Nodup →
      List.lookup k (r.filter pred) =
        (match List.lookup k r with
         | some v => if pred (k, v) then some v else none
         | none => none)
  | [], _ => rfl
  | (k0, v0) :: t, hnd => by
    simp only [payloadKeys, List.map_cons, List.nodup_cons] at hnd
    cases hk : k == k0 with
    | true =>
      have hkk : k = k0 := eq_of_beq hk
      subst hkk
      cases hp : pred (k, v0) with
      | true => simp [List.filter_cons, hp]
      | false =>
        simp [List.filter_cons, hp, lookup_filter pred k t hnd.2,
          lookup_none_of_not_mem_keys hnd.1]
    | false =>
      cases hp : pred (k0, v0) with
      | true =>
        simp [List.filter_cons, hp, List.lookup_cons, hk,
          lookup_filter pred k t hnd.2]
      | false =>
        simp [List.filter_cons, hp, List.lookup_cons, hk,
          lookup_filter pred k t hnd.2]

theorem filter_mem_eq_of_sublist :
    ∀ {l2 l : List String}, List.Sublist l2 l → l.Nodup →
      l.filter (fun k => decide (k ∈ l2)) = l2 := by
  intro l2 l hs
  induction hs with
  | slnil => intro _; rfl
  | cons a hs ih =>
    intro hnd
    rw [List.filter_cons, if_neg, ih (List.nodup_cons.mp hnd).2]
    simp only [decide_eq_true_eq]
    intro hmem
    exact (List.nodup_cons.mp hnd).1 (hs.subset hmem)
  | cons₂ a hs ih =>
    intro hnd
    rw [List.filter_cons, if_pos (by simp)]
    rename_i l₁ l₂
    have hcong : l₂.filter (fun k => decide (k ∈ a :: l₁)) =
        l₂.filter (fun k => decide (k ∈ l₁)) := by
      apply List.filter_congr
      intro x hx
      have hxa : x ≠ a := fun hEq => (List.nodup_cons.mp hnd).1 (hEq ▸ hx)
      simp [List.mem_cons, hxa]
    rw [hcong, ih (List.nodup_cons.mp hnd).2]

theorem insertionSort_filter (p : String → Bool) (L : List String) :
    (List.insertionSort keyLe L).filter p = List.insertionSort keyLe (L.filter p) :=
  List.eq_of_perm_of_sorted
    (((List.perm_insertionSort keyLe L).filter p).trans
      (List.perm_insertionSort keyLe (L.filter p)).symm)
    ((List.sorted_insertionSort keyLe L).filter p)
    (List.sorted_insertionSort keyLe (L.filter p))

theorem fieldOf_dropUndef (r : Payload) (hnd : (payloadKeys r).Nodup) (k : String) :
    fieldOf (dropUndef r) k = fieldOf r k := by
  unfold fieldOf dropUndef
  rw [lookup_filter _ k r hnd]
  cases hv : List.lookup k r with
  | none => rfl
  | some v =>
    by_cases huv : v = JVal.jundef
    · subst huv; simp
    · simp [huv]

theorem keys_dropUndef_sublist (r : Payload) :
    List.Sublist (payloadKeys (dropUndef r)) (payloadKeys r) :=
  (List.filter_sublist r).map Prod.fst

/-- Permutation invariance of the canonical serialization, for payloads
with no duplicate keys. -/
theorem serializePayload_perm (p q : Payload) (hperm : p.Perm q)
    (hnd : (payloadKeys p).Nodup) :
    serializePayload p = serializePayload q := by
  have hkeys : (payloadKeys p).Perm (payloadKeys q) := hperm.map Prod.fst
  have hsorted : List.insertionSort keyLe (payloadKeys p) =
      List.insertionSort keyLe (payloadKeys q) :=
    List.eq_of_perm_of_sorted
      ((List.perm_insertionSort _ _).trans
        (hkeys.trans (List.perm_insertionSort _ _).symm))
      (List.sorted_insertionSort _ _) (List.sorted_insertionSort _ _)
  have hfun : fieldOf p = fieldOf q := by
    funext k
    unfold fieldOf
    rw [lookup_eq_of_perm k hperm hnd]
  rw [serializePayload_eq_fieldOf, serializePayload_eq_fieldOf, hsorted, hfun]

/-- Serialization ignores `undefined`-valued properties, for payloads with
no duplicate keys. -/
theorem serializePayload_dropUndef (r : Payload)
    (hnd : (payloadKeys r).Nodup) :
    serializePayload r = serializePayload (dropUndef r) := by
  rw [serializePayload_eq_fieldOf, serializePayload_eq_fieldOf]
  have h1 : (List.insertionSort keyLe (payloadKeys r)).filterMap (fieldOf r) =
      (List.insertionSort keyLe (payloadKeys r)).filterMap (fieldOf (dropUndef r)) :=
    filterMap_congr_mem _ _ _ (fun k _ => (fieldOf_dropUndef r hnd k).symm)
  have h2 : (List.insertionSort keyLe (payloadKeys r)).filterMap (fieldOf (dropUndef r)) =
      ((List.insertionSort keyLe (payloadKeys r)).filter
        (fun k => decide (k ∈ payloadKeys (dropUndef r)))).filterMap
          (fieldOf (dropUndef r)) := by
    apply filterMap_filter_of_none
    intro k _ hk
    have hk2 : k ∉ payloadKeys (dropUndef r) := by
      intro hmem
      rw [decide_eq_true hmem] at hk
      cases hk
    unfold fieldOf
    rw [lookup_none_of_not_mem_keys hk2]
  have h3 : (List.insertionSort keyLe (payloadKeys r)).filter
      (fun k => decide (k ∈ payloadKeys (dropUndef r))) =
      List.insertionSort keyLe (payloadKeys (dropUndef r)) := by
    rw [insertionSort_filter,
      filter_mem_eq_of_sublist (keys_dropUndef_sublist r) hnd]
  rw [h1, h2, h3]

theorem fields_of_clean :
    ∀ (r : Payload), (payloadKeys r).Nodup →
      (∀ kv ∈ r, kv.2 ≠ JVal.jundef) →
      (payloadKeys r).filterMap (fieldOf r) =
        r.map (fun kv => renderJStr kv.1 ++ ":" ++ renderJVal kv.2)
  | [], _, _ => rfl
  | (k, v) :: t, hnd, hclean => by
    simp only [payloadKeys, List.map_cons, List.nodup_cons] at hnd
    have hv : v ≠ JVal.jundef := hclean (k, v) (List.mem_cons_self _ _)
    have hhead : fieldOf ((k, v) :: t) k =
        some (renderJStr k ++ ":" ++ renderJVal v) := by
      unfold fieldOf
      rw [List.lookup_cons_self]
      simp [hv]
    have htail : (payloadKeys t).filterMap (fieldOf ((k, v) :: t)) =
        (payloadKeys t).filterMap (fieldOf t) := by
      apply filterMap_congr_mem
      intro k2 hk2
      unfold fieldOf
      rw [List.lookup_cons]
      cases hkb : (k2 == k) with
      | true => exact absurd ((eq_of_beq hkb) ▸ hk2) hnd.1
      | false => rfl
    show (k :: payloadKeys t).filterMap (fieldOf ((k, v) :: t)) = _
    rw [List.filterMap_cons, hhead, htail,
      fields_of_clean t hnd.2 (fun kv hkv => hclean kv (List.mem_cons_of_mem _ hkv))]
    rfl

theorem serializePayload_sorted_clean (r : Payload)
    (hsort : (payloadKeys r).Sorted keyLe) (hnd : (payloadKeys r).Nodup)
    (hclean : ∀ kv ∈ r, kv.2 ≠ JVal.jundef) :
    serializePayload r = "\x7b" ++ String.intercalate ","
      (r.map (fun kv => renderJStr kv.1 ++ ":" ++ renderJVal kv.2)) ++ "\x7d" := by
  rw [serializePayload_eq_fieldOf, List.Sorted.insertionSort_eq hsort,
    fields_of_clean r hnd hclean]

/-- C5: the canonical serialization is invariant under permutation of the
payload's key-insertion order (for the duplicate-free key sets JS objects
have); `undefined`-valued keys are dropped; an already-sorted clean
payload serializes to the compact JSON of its fields in order; and the
signing message is the 0x19 prefix byte, the text `Octra Signed
Message:`, a newline, the decimal length of the canonical JSON, a
newline, and the canonical JSON itself. -/
theorem C5_canonical_serialization (p q : Payload) (hperm : p.Perm q)
    (hnd : (payloadKeys p).Nodup) :
    serializePayload p = serializePayload q ∧
    (∀ r, (payloadKeys r).Nodup →
      serializePayload r = serializePayload (dropUndef r)) ∧
    (∀ r, (payloadKeys r).Sorted keyLe → (payloadKeys r).Nodup →
      (∀ kv ∈ r, kv.2 ≠ JVal.jundef) →
      serializePayload r = "\x7b" ++ String.intercalate ","
        (r.map (fun kv => renderJStr kv.1 ++ ":" ++ renderJVal kv.2)) ++ "\x7d") ∧
    (∀ r, createSigningMessage r =
      "\x19" ++ "Octra Signed Message:" ++ "\n" ++
        toString (serializePayload r).length ++ "\n" ++ serializePayload r) := by
  refine ⟨serializePayload_perm p q hperm hnd, serializePayload_dropUndef,
    serializePayload_sorted_clean, ?_⟩
  intro r
  show MESSAGE_HEADER ++ toString (serializePayload r).length ++ "\n" ++
    serializePayload r = _
  rw [show MESSAGE_HEADER = "\x19" ++ "Octra Signed Message:" ++ "\n" from by decide]

/-- C5 witness: canonicalization invariance at a concrete two-key payload. -/
theorem C5_witness :
    ([("b", JVal.jstr "x"), ("a", JVal.jnum 5)] : Payload).Perm
      [("a", JVal.jnum 5), ("b", JVal.jstr "x")] ∧
    (payloadKeys [("b", JVal.jstr "x"), ("a", JVal.jnum 5)]).Nodup ∧
    serializePayload [("b", JVal.jstr "x"), ("a", JVal.jnum 5)] =
      serializePayload [("a", JVal.jnum 5), ("b", JVal.jstr "x")] :=
  ⟨List.Perm.swap _ _ _, by decide,
    (C5_canonical_serialization _ _ (List.Perm.swap _ _ _) (by decide)).1⟩

/-- C4: signing a payload through the worker's OSM-1 pipeline and
verifying the resulting envelope reports `valid = true` with all five
sub-checks true, given the external capabilities' contracts: the base64
codec round-trips the signature, the signature scheme verifies its own
signatures for the wallet's key pair, the payload carries the `OSM-1`
version tag and no `expiresAt`, and the wallet's address is
`'oct' + base58(sha256(publicKey))`.  In general, `valid` is exactly the
conjunction of the five reported sub-checks, and `addressMatch` holds iff
the address equals `'oct' + base58(sha256(publicKey))`. -/
theorem C4_osm1_roundtrip (cp : CryptoPrims) (wallet : Session)
    (payload : Payload) (now : Int)
    (hver : List.lookup "version" payload = some (JVal.jstr "OSM-1"))
    (hexp : List.lookup "expiresAt" payload = none)
    (hsig : cp.atob (cp.btoa (cp.naclSignDetached
        (utf8Bytes (createSigningMessage payload))
        (deriveSecretKey cp (jsOrS wallet.privateKey wallet.privateKeyB64)))) =
      cp.naclSignDetached (utf8Bytes (createSigningMessage payload))
        (deriveSecretKey cp (jsOrS wallet.privateKey wallet.privateKeyB64)))
    (hkey : cp.naclVerifyDetached (utf8Bytes (createSigningMessage payload))
        (cp.naclSignDetached (utf8Bytes (createSigningMessage payload))
          (deriveSecretKey cp (jsOrS wallet.privateKey wallet.privateKeyB64)))
        (cp.atob wallet.publicKeyB64) = true)
    (haddr : wallet.address =
      "oct" ++ base58Encode (cp.sha256 (cp.atob wallet.publicKeyB64))) :
    verifyOSM1Signature cp (signMessageEnvelope cp payload wallet) none true now =
      ⟨true, ⟨true, true, true, true, true⟩⟩ ∧
    (∀ resp ed ce n, (verifyOSM1Signature cp resp ed ce n).valid =
      ((verifyOSM1Signature cp resp ed ce n).validations.signatureValid &&
       (verifyOSM1Signature cp resp ed ce n).validations.versionValid &&
       (verifyOSM1Signature cp resp ed ce n).validations.domainMatch &&
       (verifyOSM1Signature cp resp ed ce n).validations.notExpired &&
       (verifyOSM1Signature cp resp ed ce n).validations.addressMatch)) ∧
    (∀ resp ed ce n,
      ((verifyOSM1Signature cp resp ed ce n).validations.addressMatch = true ↔
        "oct" ++ base58Encode (cp.sha256 (cp.atob resp.publicKey)) = resp.address)) := by
  refine ⟨?_, fun resp ed ce n => rfl, fun resp ed ce n => by
    simp [verifyOSM1Signature]⟩
  simp only [createSigningMessage] at hsig hkey
  simp only [verifyOSM1Signature, signMessageEnvelope, signMessageWithKey,
    createSigningMessage]
  rw [hsig]
  simp [hkey, hver, hexp, haddr, truthyS, OSM_VERSION]

/-- C4 witness: the round-trip at a concrete payload, wallet and toy
signature scheme. -/
theorem C4_witness :
    List.lookup "version" demoPayload = some (JVal.jstr "OSM-1") ∧
    List.lookup "expiresAt" demoPayload = none ∧
    verifyOSM1Signature demoPrims
        (signMessageEnvelope demoPrims demoPayload demoWallet) none true
        1700000000000 =
      ⟨true, ⟨true, true, true, true, true⟩⟩ :=
  ⟨by decide, by decide,
    (C4_osm1_roundtrip demoPrims demoWallet demoPayload 1700000000000
      (by decide) (by decide) (by decide) (by decide) (by decide)).1⟩
